import Mathlib

/-!
Verification of the Fluent-to-Python transpiler backend
(`src/backend/ast_nodes.py`, `src/backend/ast_transformer.py`,
`src/backend/transpiler.py`, `src/backend/fluent_stdlib_map.py`).

The AST node classes are embedded as inductive types (child-node lists
are embedded as the mutual list types `ExprList`, `EntryList` and
`StmtList`, so that all the generator functions are structurally
recursive and computable by reduction), and the code generator
(`Transpiler`) as explicit state-passing functions over a record
holding the output line list, the indentation level and the
scope-tracking dictionaries.  Python attribute probing (`hasattr`) is
resolved against the fields the AST classes actually define.
-/

namespace Fluent

/-- Python runtime values that can appear in `Literal.value`
(`ast_nodes.Literal`: int, float, str, bool, None).  A float is carried
as its printed text, which is all the generator ever uses of it. -/
inductive PyVal where
  | int (n : Int)
  | float (text : String)
  | str (s : String)
  | bool (b : Bool)
  | none
deriving DecidableEq, Repr

/-- Python `str()` on the values of `PyVal`. -/
def pyStr : PyVal → String
  | .int n => toString n
  | .float t => t
  | .str s => s
  | .bool b => if b then ("True") else ("False")
  | .none => "None"

/-- Type nodes: `ast_nodes.Type` (scalar, carrying its name string),
`ast_nodes.ListType`, `ast_nodes.MapType`. -/
inductive Ty where
  | scalar (name : String)
  | list (elementType : Ty)
  | map (keyType : Ty) (valueType : Ty)
deriving DecidableEq, Repr

/-- `ast_nodes.Parameter`: name (a string, `get_val` applied by the
transformer) and declared type. -/
structure Param where
  name : String
  paramType : Option Ty
deriving DecidableEq, Repr

mutual

/-- Expression nodes of `ast_nodes.py` (plus `Comparison`, which
`ast_transformer.comparison` constructs).  `Literal.type` is the string
tag, `BinaryOp.operator` / `UnaryOp.operator` are the operator strings
the transformer produces ("ADD", "SUB", ..., or raw spellings). -/
inductive Expr where
  | literal (value : PyVal) (type : String)
  | identifier (name : String)
  | binaryOp (left : Expr) (operator : String) (right : Expr)
  | unaryOp (operator : String) (operand : Expr)
  | functionCall (name : String) (arguments : ExprList)
  | listLiteral (elements : ExprList)
  | mapLiteral (entries : EntryList)
  | comparison (left : Expr) (op : String) (right : Expr)

/-- An ordered list of expression nodes (function arguments, list
elements). -/
inductive ExprList where
  | nil
  | cons (head : Expr) (tail : ExprList)

/-- An ordered list of `(key, value)` expression pairs
(`MapLiteral.entries`). -/
inductive EntryList where
  | nil
  | cons (key : Expr) (value : Expr) (tail : EntryList)

end

/-- Embed a Lean list of expressions. -/
def ExprList.ofList : List Expr → ExprList
  | [] => .nil
  | e :: rest => .cons e (ExprList.ofList rest)

mutual

/-- Statement nodes of `ast_nodes.py`.  Field shapes follow what
`ast_transformer.py` actually constructs: declaration / function /
parameter names are strings, an absent `else` block is the empty list
(`if_statement` builds `else_stmts = []`), `ForeachStatement` stores
`item_name` and `iterable` (the names from `ast_nodes.py`). -/
inductive Stmt where
  | variableDeclaration (name : String) (varType : Option Ty) (initializer : Option Expr)
  | assignment (target : Expr) (value : Expr)
  | printStatement (expression : Expr)
  | functionCallStatement (functionCall : Expr)
  | ifStatement (condition : Expr) (thenBlock : StmtList) (elseBlock : StmtList)
  | whileStatement (condition : Expr) (body : StmtList)
  | foreachStatement (itemName : Expr) (iterable : Expr) (body : StmtList)
  | functionDefinition (name : String) (params : List Param) (returnType : Option Ty)
      (body : StmtList)
  | returnStatement (expression : Option Expr)
  | breakStatement

/-- An ordered statement sequence (blocks, bodies, program). -/
inductive StmtList where
  | nil
  | cons (head : Stmt) (tail : StmtList)

end

/-- Embed a Lean list of statements. -/
def StmtList.ofList : List Stmt → StmtList
  | [] => .nil
  | s :: rest => .cons s (StmtList.ofList rest)

/-- `ast_nodes.Program`: the root node owning the top-level statements. -/
structure Program where
  statements : StmtList

/-- `OPERATOR_MAP` from `fluent_stdlib_map.py` (note the space after
`not`, as in the source). -/
def OPERATOR_MAP : List (String × String) :=
  [("+", "+"), ("-", "-"), ("*", "*"), ("/", "/"),
   ("==", "=="), ("!=", "!="), ("<", "<"), ("<=", "<="), (">", ">"), (">=", ">="),
   ("AND", "and"), ("OR", "or"), ("NOT", "not ")]

/-- Python `dict.get(key, default)` over an association list. -/
def dictGet (m : List (String × String)) (key dflt : String) : String :=
  match m.find? (fun kv => kv.1 = key) with
  | some kv => kv.2
  | Option.none => dflt

/-- Python `str.isupper()`: at least one cased character and no
lowercase character (ASCII inputs here). -/
def pyIsUpper (s : String) : Bool :=
  (!s.toList.any Char.isLower) && s.toList.any Char.isUpper

/-- Python `str.lower()` (ASCII). -/
def pyLower (s : String) : String :=
  String.mk (s.toList.map Char.toLower)

/-- `", ".join(...)`. -/
def joinComma (xs : List String) : String :=
  String.intercalate (", ") xs

/-- Python `repr()` of a string value, as used by
`visit_Literal` for STRING literals: single-quoted with backslash and
quote escapes (the escapes the generated programs of this development
exercise). -/
def pyReprStr (s : String) : String :=
  let esc := s.toList.foldr
    (fun c acc =>
      if c = '\\' then '\\' :: '\\' :: acc
      else if c = '\x27' then '\\' :: '\x27' :: acc
      else if c = '\n' then '\\' :: 'n' :: acc
      else if c = '\t' then '\\' :: 't' :: acc
      else c :: acc) []
  "\x27" ++ String.mk esc ++ "\x27"

/-- `Transpiler.visit_Type` / `visit_ListType` / `visit_MapType`:
the type-annotation text for a type node. -/
def visitTy : Ty → String
  | .scalar name =>
      if name = "NULLTYPE" || name = "NOTHING" then ("None") else pyLower name
  | .list e => "list[" ++ visitTy e ++ "]"
  | .map k v => "dict[" ++ visitTy k ++ ", " ++ visitTy v ++ "]"

/-- `visit_Literal`: dispatch on the literal's type tag. -/
def visitLiteral (value : PyVal) (type : String) : String :=
  if type = "INTEGER" then
    pyStr value
  else if type = "FLOAT" then
    pyStr value
  else if type = "STRING" then
    match value with
    | .str s => pyReprStr s
    | v => pyReprStr (pyStr v)
  else if type = "BOOLEAN" then
    match value with
    | .bool b => if b then ("True") else ("False")
    | .str s => if pyLower s = "true" then ("True") else ("False")
    | .none => "False"
    | v => pyStr v
  else if type = "NULLTYPE" then
    "None"
  else
    pyStr value

mutual

/-- The expression fragment of `Transpiler.visit`: every expression
visitor returns a code string and leaves the output untouched
(`required_imports`, which `visit_FunctionCall` adds to, is written but
never read by any emission). -/
def visitExpr : Expr → String
  | .literal v t => visitLiteral v t
  | .identifier n =>
      -- visit_Identifier: TRUE/FALSE become Python booleans
      if n = "TRUE" then ("True")
      else if n = "FALSE" then ("False")
      else n
  | .binaryOp l op r =>
      let left := visitExpr l
      let right := visitExpr r
      if op = "ADD" then left ++ " + " ++ right
      else if op = "SUB" then left ++ " - " ++ right
      else if op = "MUL" then left ++ " * " ++ right
      else if op = "DIV" then left ++ " / " ++ right
      else if op = "AND" then left ++ " and " ++ right
      else if op = "OR" then left ++ " or " ++ right
      else left ++ " " ++ pyLower op ++ " " ++ right
  | .unaryOp op operand =>
      let opStr := dictGet OPERATOR_MAP op op
      let o := visitExpr operand
      if op = "NOT" then opStr ++ o
      else opStr ++ "(" ++ o ++ ")"
  | .functionCall name args =>
      -- visit_FunctionCall: node.name is a string (no .name attribute),
      -- uppercase names are stdlib calls; GET_ELEMENT with exactly two
      -- arguments becomes indexing
      if pyIsUpper name then
        match name, args with
        | "GET_ELEMENT", .cons lst (.cons idx .nil) =>
            visitExpr lst ++ "[" ++ visitExpr idx ++ "]"
        | _, other => pyLower name ++ "(" ++ joinComma (visitExprList other) ++ ")"
      else
        name ++ "(" ++ joinComma (visitExprList args) ++ ")"
  | .listLiteral elems =>
      match elems with
      | .nil => "[]"
      | .cons e rest => "[" ++ joinComma (visitExprList (.cons e rest)) ++ "]"
  | .mapLiteral entries =>
      match entries with
      | .nil => "\x7b\x7d"
      | .cons k v rest => "\x7b" ++ joinComma (visitEntryList (.cons k v rest)) ++ "\x7d"
  | .comparison l op r =>
      -- visit_Comparison: map the EQUAL/... spellings, pass others through
      let opMapped :=
        if op = "EQUAL" then "=="
        else if op = "NOT_EQUAL" then "!="
        else if op = "LESS_THAN" then "<"
        else if op = "LESS_THAN_EQUAL" then "<="
        else if op = "GREATER_THAN" then ">"
        else if op = "GREATER_THAN_EQUAL" then ">="
        else op
      visitExpr l ++ " " ++ opMapped ++ " " ++ visitExpr r

/-- `[self.visit(arg) for arg in arguments]`. -/
def visitExprList : ExprList → List String
  | .nil => []
  | .cons e rest => visitExpr e :: visitExprList rest

/-- Map-literal entries: `f"{key}: {value}"` for each `(key, value)`. -/
def visitEntryList : EntryList → List String
  | .nil => []
  | .cons k v rest => (visitExpr k ++ ": " ++ visitExpr v) :: visitEntryList rest

end

/-- The mutable state of a `Transpiler` instance: the output line list,
the indentation level, and the scope-tracking dictionaries (modelled by
their key lists; they are written but never influence emission).
`minIndent` instruments the walk with the least value `indent_level`
has taken, so that "never negative" is a statement about the record. -/
structure TState where
  output : List String
  indentLevel : Int
  minIndent : Int
  scope : List String
  currentFunctionParams : List String
deriving DecidableEq, Repr

/-- The state `Transpiler.__init__` / `transpile` start from. -/
def initState : TState :=
  { output := [], indentLevel := 0, minIndent := 0, scope := [], currentFunctionParams := [] }

/-- `Transpiler._indent`: four spaces per level (Python's `"    " * n`
is empty for `n ≤ 0`). -/
def pyIndent (n : Int) : String :=
  String.join (List.replicate n.toNat ("    "))

/-- Indent string at the state's current level. -/
def indentOf (st : TState) : String :=
  pyIndent st.indentLevel

/-- `self.output.append(line)`. -/
def append (st : TState) (line : String) : TState :=
  { st with output := st.output ++ [line] }

/-- `self.indent_level += 1` (recording the new value in `minIndent`). -/
def incIndent (st : TState) : TState :=
  let l := st.indentLevel + 1
  { st with indentLevel := l, minIndent := min st.minIndent l }

/-- `self.indent_level -= 1` (recording the new value in `minIndent`). -/
def decIndent (st : TState) : TState :=
  let l := st.indentLevel - 1
  { st with indentLevel := l, minIndent := min st.minIndent l }

/-- Python `hasattr(node, "name")` plus the read `node.name` for
expression nodes: `Identifier` and `FunctionCall` are the expression
classes in `ast_nodes.py` defining a `name` attribute. -/
def exprNameAttr : Expr → Option String
  | .identifier n => some n
  | .functionCall n _ => some n
  | _ => Option.none

/-- `visit_Assignment`'s target text: `node.target.name` when the
target has a `name` attribute, else `self.visit(node.target)`. -/
def targetStr (target : Expr) : String :=
  match exprNameAttr target with
  | some n => n
  | Option.none => visitExpr target

/-- The condition text computed by `visit_IfStatement`: an initial
`self.visit`, then re-generated for `<` / `>` / `==` BinaryOps, and a
`== 0` comparison appended for GET_LENGTH / GET_STRING_LENGTH calls. -/
def ifConditionStr (cond : Expr) : String :=
  let condition := visitExpr cond
  match cond with
  | .binaryOp l op r =>
      if op = "<" then visitExpr l ++ " < " ++ visitExpr r
      else if op = ">" then visitExpr l ++ " > " ++ visitExpr r
      else if op = "==" then visitExpr l ++ " == " ++ visitExpr r
      else condition
  | .functionCall fname _ =>
      if fname = "GET_LENGTH" || fname = "GET_STRING_LENGTH" then condition ++ " == 0"
      else condition
  | _ => condition

/-- The condition text computed by `visit_WhileStatement` for
non-identifier conditions: re-generated for `<` / `>` / `==` / `!=`
BinaryOps. -/
def whileConditionStr (cond : Expr) : String :=
  let condition := visitExpr cond
  match cond with
  | .binaryOp l op r =>
      if op = "<" then visitExpr l ++ " < " ++ visitExpr r
      else if op = ">" then visitExpr l ++ " > " ++ visitExpr r
      else if op = "==" then visitExpr l ++ " == " ++ visitExpr r
      else if op = "!=" then visitExpr l ++ " != " ++ visitExpr r
      else condition
  | _ => condition

/-- The docstring parameter lines of `visit_FunctionDefinition`:
`    <name>: <type>` at the current indent for each parameter. -/
def emitParamDocs : List Param → TState → TState
  | [], st => st
  | p :: rest, st =>
      let pt := match p.paramType with | some t => visitTy t | Option.none => "Any"
      emitParamDocs rest (append st (indentOf st ++ "    " ++ p.name ++ ": " ++ pt ++ "\n"))

/-- The special-cased statements of the `visit_WhileStatement` body
loop: `some` when the loop handles the statement itself and `continue`s
(`x = x + e` emitted as `x += e`; identifier self-assignment `x = x`
emitted as `x += 1  # Fixed infinite loop`), `none` when the statement
falls through to `self.visit(stmt)`. -/
def whileBodySpecial (stmt : Stmt) (st : TState) : Option TState :=
  match stmt with
  | .assignment target value =>
      (match value with
       | .binaryOp bl op br =>
           if op = "ADD" then
             match exprNameAttr target, exprNameAttr bl with
             | some tn, some ln =>
                 if tn = ln then
                   let left := visitExpr bl
                   let right := visitExpr br
                   if right = "1" then
                     some (append st (indentOf st ++ left ++ " += 1\n"))
                   else
                     some (append st (indentOf st ++ left ++ " += " ++ right ++ "\n"))
                 else Option.none
             | _, _ => Option.none
           else Option.none
       | v =>
           match exprNameAttr target, exprNameAttr v with
           | some tn, some vn =>
               if tn = vn then
                 some (append st (indentOf st ++ tn ++ " += 1  # Fixed infinite loop\n"))
               else Option.none
           | _, _ => Option.none)
  | _ => Option.none

/-- The special-cased statements of the `visit_ForeachStatement` body
loop: only `x = x + e` (emitted as `x += e`) — the self-assignment
branch additionally probes `hasattr(node, "item")`, which always fails
(the field is `item_name`), so it never fires and such statements fall
through to `visit`. -/
def foreachBodySpecial (stmt : Stmt) (st : TState) : Option TState :=
  match stmt with
  | .assignment target value =>
      (match value with
       | .binaryOp bl op br =>
           if op = "ADD" then
             match exprNameAttr target, exprNameAttr bl with
             | some tn, some ln =>
                 if tn = ln then
                   some (append st (indentOf st ++ visitExpr bl ++ " += " ++ visitExpr br ++ "\n"))
                 else Option.none
             | _, _ => Option.none
           else Option.none
       | _ => Option.none)
  | _ => Option.none

/-- The header line(s) of `visit_WhileStatement`: a bare-identifier
condition gets a comment plus a hard-coded `get_length(numbers)` bound;
any other condition emits `while <condition>:`. -/
def whileHeader (cond : Expr) (st : TState) : TState :=
  match cond with
  | .identifier n =>
      let varName := visitExpr (.identifier n)
      let st := append st (indentOf st ++ "# Ensure proper termination condition\n")
      append st (indentOf st ++ "while " ++ varName ++ " < get_length(numbers):\n")
  | c => append st (indentOf st ++ "while " ++ whileConditionStr c ++ ":\n")

/-- The docstring block of `visit_FunctionDefinition`: the opening
quotes, the `Function:` line, the parameter lines when any parameter
exists, the `Returns:` line and the closing quotes. -/
def funcDocEmit (name : String) (params : List Param) (returnTypeStr : String)
    (st : TState) : TState :=
  let st := append st (indentOf st ++ "\"\"\"\n")
  let st := append st (indentOf st ++ "Function: " ++ name ++ "\n")
  let st :=
    match params with
    | [] => st
    | p :: ps => emitParamDocs (p :: ps) (append st (indentOf st ++ "Parameters:\n"))
  let st := append st (indentOf st ++ "Returns: " ++ returnTypeStr ++ "\n")
  append st (indentOf st ++ "\"\"\"\n")

/-- Install the function parameters in the scope dictionaries
(`self.scope[param_name] = True` for each, and
`self.current_function_params = {...}`). -/
def scopeInstall (paramNames : List String) (st : TState) : TState :=
  { st with scope := st.scope ++ paramNames, currentFunctionParams := paramNames }

/-- Restore the saved scope dictionaries after the function body. -/
def scopeRestore (oldScope oldParams : List String) (st : TState) : TState :=
  { st with scope := oldScope, currentFunctionParams := oldParams }

mutual

/-- The statement fragment of `Transpiler.visit`: one case per
`visit_<NodeType>` method of `transpiler.py`. -/
def emitStmt (s : Stmt) (st : TState) : TState :=
  match s with
  | .variableDeclaration name varType initializer =>
      -- visit_VariableDeclaration; node.name is a string, so the
      -- hasattr(node.name, "name") probe fails and str(node.name) is used
      let typeStr := match varType with | some t => visitTy t | Option.none => "Any"
      (match initializer with
       | some init =>
           append st (indentOf st ++ name ++ ": " ++ typeStr ++ " = " ++ visitExpr init ++ "\n")
       | Option.none =>
           append st (indentOf st ++ name ++ ": " ++ typeStr ++ " = None\n"))
  | .assignment target value =>
      -- visit_Assignment
      let tgt := targetStr target
      (match value with
       | .binaryOp l op r =>
           if op = "ADD" then
             append st (indentOf st ++ tgt ++ " = " ++ visitExpr l ++ " + " ++ visitExpr r ++ "\n")
           else
             append st (indentOf st ++ tgt ++ " = " ++ visitExpr (.binaryOp l op r) ++ "\n")
       | v => append st (indentOf st ++ tgt ++ " = " ++ visitExpr v ++ "\n"))
  | .printStatement e =>
      append st (indentOf st ++ "print(" ++ visitExpr e ++ ")\n")
  | .functionCallStatement fc =>
      append st (indentOf st ++ visitExpr fc ++ "\n")
  | .ifStatement cond thenB elseB =>
      let st := append st (indentOf st ++ "if " ++ ifConditionStr cond ++ ":\n")
      let st := incIndent st
      let st :=
        match thenB with
        | .nil => append st (indentOf st ++ "pass\n")
        | .cons t ts => emitStmts (.cons t ts) st
      let st := decIndent st
      (match elseB with
       | .nil => st  -- `if ... node.else_block:` — an empty list is falsy
       | .cons e es =>
           let st := append st (indentOf st ++ "else:\n")
           let st := incIndent st
           let st := emitStmts (.cons e es) st
           decIndent st)
  | .whileStatement cond body =>
      let st := whileHeader cond st
      let st := incIndent st
      let st := emitWhileBody body st
      decIndent st
  | .foreachStatement itemName iterable body =>
      -- visit_ForeachStatement probes hasattr(node, "item") and
      -- hasattr(node, "collection"); ForeachStatement defines item_name
      -- and iterable instead, so both probes fail and the fallbacks run.
      let _ := itemName
      let _ := iterable
      let iterator := "item"
      let collection := "[]"
      let st := append st (indentOf st ++ "for " ++ iterator ++ " in " ++ collection ++ ":\n")
      let st := incIndent st
      let st :=
        match body with
        | .nil => append st (indentOf st ++ "pass\n")
        | .cons b bs => emitForeachBody (.cons b bs) st
      decIndent st
  | .functionDefinition name params returnType body =>
      let paramNames := params.map Param.name
      let paramsStr := joinComma paramNames
      let returnTypeStr := match returnType with | some t => visitTy t | Option.none => "None"
      -- the def line is emitted without the indent prefix
      let st := append st ("def " ++ name ++ "(" ++ paramsStr ++ ") -> " ++ returnTypeStr ++ ":\n")
      let st := incIndent st
      let st := funcDocEmit name params returnTypeStr st
      let oldScope := st.scope
      let oldParams := st.currentFunctionParams
      let st := scopeInstall paramNames st
      let st :=
        match body with
        | .nil => append st (indentOf st ++ "pass\n")
        | .cons b bs => emitStmts (.cons b bs) st
      let st := scopeRestore oldScope oldParams st
      let st := decIndent st
      append st ("\n")
  | .returnStatement expression =>
      -- visit_ReturnStatement; ReturnStatement defines `expression`
      (match expression with
       | some v =>
           let valueCode := visitExpr v
           let valueCode :=
             if valueCode = "None(1)" then "-1"
             else if valueCode = "None(-1)" then "-1"
             else valueCode
           append st (indentOf st ++ "return " ++ valueCode ++ "\n")
       | Option.none => append st (indentOf st ++ "return None\n"))
  | .breakStatement =>
      append st (indentOf st ++ "break\n")

/-- Statement sequences: the `for stmt in ...: self.visit(stmt)` loops
(the `if isinstance(statement_code, str) and statement_code` guard of
`visit_IfStatement` never appends, since statement visitors return
`""` or `None`). -/
def emitStmts (l : StmtList) (st : TState) : TState :=
  match l with
  | .nil => st
  | .cons s rest => emitStmts rest (emitStmt s st)

/-- The body loop of `visit_WhileStatement`, with its special cases for
`x = x + e` (emitted as `x += e`) and identifier self-assignment
`x = x` (emitted as `x += 1  # Fixed infinite loop`). -/
def emitWhileBody (l : StmtList) (st : TState) : TState :=
  match l with
  | .nil => st
  | .cons stmt rest =>
      let st :=
        match whileBodySpecial stmt st with
        | some st' => st'
        | Option.none => emitStmt stmt st
      emitWhileBody rest st

/-- The body loop of `visit_ForeachStatement`. -/
def emitForeachBody (l : StmtList) (st : TState) : TState :=
  match l with
  | .nil => st
  | .cons stmt rest =>
      let st :=
        match foreachBodySpecial stmt st with
        | some st' => st'
        | Option.none => emitStmt stmt st
      emitForeachBody rest st

end

/-- `Transpiler.generate_imports`: the fixed header prepended to every
transpilation. -/
def generateImports : String :=
  String.intercalate "\n"
    ["from typing import Any, List, Dict, Optional, Union",
     "# Generated from Fluent code",
     "",
     "# Import Fluent standard library",
     "import sys",
     "import os",
     "# Add the backend directory to the Python path",
     "sys.path.append(os.path.dirname(os.path.abspath(\x27__file__\x27)))",
     "from fluent_stdlib_map import (",
     "    get_length, get_element, _set_element as set_element, get_string_length, ",
     "    split_string, concatenate_strings, integer_to_string, list_to_string,",
     "    map_has_key, get_map_value, set_map_value, get_map_keys",
     ")",
     ""]

/-- `Transpiler.transpile`: reset the state, emit the import header,
visit the Program root, and join the output lines. -/
def transpile (p : Program) : String :=
  let st := { initState with output := [generateImports] }
  String.join (emitStmts p.statements st).output

/-- An AST node of a type for which `Transpiler` defines no
`visit_<Type>` method, as `generic_visit` observes it: its type name
(`type(node).__name__`), its `value` attribute when it has one, and its
`str()` form. -/
structure UnknownNode where
  typeName : String
  value : Option PyVal
  strForm : String
deriving DecidableEq, Repr

/-- `Transpiler.generic_visit`, reached by `visit` for any node type
without a registered visitor.  The result is wrapped in `Except` so
that "raises an error" is statable; the source returns
`str(node.value)` when the node has a `value` attribute and `str(node)`
otherwise, and no code path raises (`TranspilerError` is defined in
`transpiler.py` but never raised). -/
def genericVisit (node : UnknownNode) : Except String String :=
  match node.value with
  | some v => Except.ok (pyStr v)
  | Option.none => Except.ok node.strForm

/-- Modelled from the spec: the fixed escape table of §4.1 (`\n`, `\t`,
`\"`, `\\`), applied to the body of a string-literal token; an escape
not in the table is kept verbatim. -/
def specEscapeResolve : List Char → List Char
  | [] => []
  | c :: rest =>
      if c = '\\' then
        match rest with
        | [] => ['\\']
        | c2 :: rest2 =>
            (if c2 = 'n' then ['\n']
             else if c2 = 't' then ['\t']
             else if c2 = '"' then ['"']
             else if c2 = '\\' then ['\\']
             else ['\\', c2]) ++ specEscapeResolve rest2
      else c :: specEscapeResolve rest

/-- A string-literal token body is well formed when every backslash
starts a two-character escape pair and no unescaped quote occurs. -/
def wellFormedBody : List Char → Bool
  | [] => true
  | c :: rest =>
      if c = '"' then false
      else if c = '\\' then
        match rest with
        | [] => false
        | _ :: rest2 => wellFormedBody rest2
      else wellFormedBody rest

/-- Modelled from the spec: the Tree Builder's string-literal
materialization as §4.1 prescribes it — strip the quotes of a plain
double-quoted literal token and resolve its escapes through the fixed
table; anything else is not a literal this resolver accepts. -/
def specStringValue (tok : String) : Option String :=
  match tok.toList with
  | '"' :: rest =>
      match rest.getLast? with
      | some '"' =>
          let body := rest.dropLast
          if wellFormedBody body then some (String.mk (specEscapeResolve body))
          else Option.none
      | _ => Option.none
  | _ => Option.none

/-- One Python escape inside a double-quoted literal, as `eval`
resolves it (restricted to the escapes this development exercises;
an unrecognized escape is kept verbatim, as Python does). -/
def pyEsc (c : Char) : List Char :=
  if c = 'n' then ['\n']
  else if c = 't' then ['\t']
  else if c = '"' then ['"']
  else if c = '\\' then ['\\']
  else ['\\', c]

/-- Scan the remainder of a double-quoted Python literal: consume up to
the closing quote, resolving escapes, and return the value with the
characters following the closing quote; `none` when unterminated. -/
def scanQuoted : List Char → Option (List Char × List Char)
  | [] => Option.none
  | c :: rest =>
      if c = '"' then some ([], rest)
      else if c = '\\' then
        match rest with
        | [] => Option.none
        | c2 :: rest2 =>
            (match scanQuoted rest2 with
             | some (v, r) => some (pyEsc c2 ++ v, r)
             | Option.none => Option.none)
      else
        (match scanQuoted rest with
         | some (v, r) => some (c :: v, r)
         | Option.none => Option.none)

/-- Modelled from the spec: Python `eval` applied to the raw token text
— `ast_transformer.py` line 349, `ast.Literal(eval(get_val(s)), "STRING")`,
the "evaluate this as target-language code" shortcut §9 describes.
Python itself is the external host language; its evaluation is
modelled on the token shapes this development uses: a double-quoted
literal evaluates to its escape-resolved body, and token text of the
form `<literal> + <literal>` is evaluated as code — a concatenation
expression producing the concatenation of the two values.  Any other
text is an evaluation error. -/
def pyEvalToken (tok : String) : Option String :=
  match tok.toList with
  | '"' :: rest =>
      (match scanQuoted rest with
       | some (v, []) => some (String.mk v)
       | some (v, ' ' :: '+' :: ' ' :: '"' :: rest2) =>
           (match scanQuoted rest2 with
            | some (v2, []) => some (String.mk (v ++ v2))
            | _ => Option.none)
       | _ => Option.none)
  | _ => Option.none

/-- `ASTTransformer.STRING_LITERAL`: build the AST literal from the
token by evaluating the token text (`eval(get_val(s))`). -/
def STRING_LITERAL (tok : String) : Option Expr :=
  match pyEvalToken tok with
  | some v => some (Expr.literal (.str v) "STRING")
  | Option.none => Option.none

mutual

/-- Consistent renaming of the variable name `a` to `b` inside an
expression (identifiers only; callee names are function, not variable,
names). -/
def renameExpr (a b : String) : Expr → Expr
  | .literal v t => .literal v t
  | .identifier n => .identifier (if n = a then b else n)
  | .binaryOp l op r => .binaryOp (renameExpr a b l) op (renameExpr a b r)
  | .unaryOp op o => .unaryOp op (renameExpr a b o)
  | .functionCall n args => .functionCall n (renameExprList a b args)
  | .listLiteral es => .listLiteral (renameExprList a b es)
  | .mapLiteral es => .mapLiteral (renameEntryList a b es)
  | .comparison l op r => .comparison (renameExpr a b l) op (renameExpr a b r)

def renameExprList (a b : String) : ExprList → ExprList
  | .nil => .nil
  | .cons e rest => .cons (renameExpr a b e) (renameExprList a b rest)

def renameEntryList (a b : String) : EntryList → EntryList
  | .nil => .nil
  | .cons k v rest => .cons (renameExpr a b k) (renameExpr a b v) (renameEntryList a b rest)

end

mutual

/-- Consistent renaming of the variable name `a` to `b` inside a
statement: identifiers, declaration names, parameter names and loop
variables; function names are left alone. -/
def renameStmt (a b : String) : Stmt → Stmt
  | .variableDeclaration n t i =>
      .variableDeclaration (if n = a then b else n) t (i.map (renameExpr a b))
  | .assignment t v => .assignment (renameExpr a b t) (renameExpr a b v)
  | .printStatement e => .printStatement (renameExpr a b e)
  | .functionCallStatement fc => .functionCallStatement (renameExpr a b fc)
  | .ifStatement c tb eb =>
      .ifStatement (renameExpr a b c) (renameStmts a b tb) (renameStmts a b eb)
  | .whileStatement c body => .whileStatement (renameExpr a b c) (renameStmts a b body)
  | .foreachStatement i e body =>
      .foreachStatement (renameExpr a b i) (renameExpr a b e) (renameStmts a b body)
  | .functionDefinition n ps rt body =>
      .functionDefinition n
        (ps.map (fun p => { p with name := if p.name = a then b else p.name }))
        rt (renameStmts a b body)
  | .returnStatement e => .returnStatement (e.map (renameExpr a b))
  | .breakStatement => .breakStatement

def renameStmts (a b : String) : StmtList → StmtList
  | .nil => .nil
  | .cons s rest => .cons (renameStmt a b s) (renameStmts a b rest)

end

/-- Consistent renaming of the variable name `a` to `b` in a whole
program. -/
def renameProgram (a b : String) (p : Program) : Program :=
  ⟨renameStmts a b p.statements⟩

/-- Replace every occurrence of `needle` by `repl` in `hay`,
left-to-right (fuel-driven so that it computes by reduction; the fuel
is the text length, which always suffices). -/
def replaceChars (fuel : Nat) (needle repl hay : List Char) : List Char :=
  match fuel, hay with
  | 0, rest => rest
  | _ + 1, [] => []
  | fuel + 1, c :: rest =>
      if needle ≠ [] && needle.isPrefixOf (c :: rest) then
        repl ++ replaceChars fuel needle repl ((c :: rest).drop needle.length)
      else
        c :: replaceChars fuel needle repl rest

/-- Textual renaming on generated output: the formal reading of "the
generated texts differ only in the renamed name" — the second text is
the first with every occurrence of the old name replaced by the new
one. -/
def textRename (s needle repl : String) : String :=
  String.mk (replaceChars s.length needle.toList repl.toList s.toList)

/-- The return-type text of `visit_FunctionDefinition`. -/
def retStr (rt : Option Ty) : String :=
  match rt with
  | some t => visitTy t
  | Option.none => "None"

/-- The docstring parameter lines as a pure list (characterizing
`emitParamDocs`). -/
def paramDocLines (ps : List Param) (ind : String) : List String :=
  ps.map (fun p =>
    ind ++ "    " ++ p.name ++ ": "
      ++ (match p.paramType with | some t => visitTy t | Option.none => "Any") ++ "\n")

/-- The full docstring block of `visit_FunctionDefinition` as a pure
list of lines. -/
def funcDocLines (name : String) (ps : List Param) (rts : String) (ind : String) : List String :=
  [ind ++ "\"\"\"\n", ind ++ "Function: " ++ name ++ "\n"]
    ++ (match ps with
        | [] => []
        | _ => (ind ++ "Parameters:\n") :: paramDocLines ps ind)
    ++ [ind ++ "Returns: " ++ rts ++ "\n", ind ++ "\"\"\"\n"]

/-- Indentation/minimum-indentation relation between a pre-state and a
post-state of an emission step: the indentation level is restored, the
running minimum never drops below the smaller of the entry minimum and
the entry level (so a walk started at level 0 never goes negative). -/
def StepOk (st st' : TState) : Prop :=
  st'.indentLevel = st.indentLevel ∧
  st'.minIndent ≤ st.minIndent ∧
  min st.minIndent st.indentLevel ≤ st'.minIndent

/-! ## Theorems -/

/-- `append` only extends the output. -/
@[simp]
theorem append_output (st : TState) (l : String) :
    (append st l).output = st.output ++ [l] := rfl

@[simp]
theorem append_indentLevel (st : TState) (l : String) :
    (append st l).indentLevel = st.indentLevel := rfl

@[simp]
theorem append_minIndent (st : TState) (l : String) :
    (append st l).minIndent = st.minIndent := rfl

@[simp]
theorem append_scope (st : TState) (l : String) :
    (append st l).scope = st.scope := rfl

@[simp]
theorem append_currentFunctionParams (st : TState) (l : String) :
    (append st l).currentFunctionParams = st.currentFunctionParams := rfl

@[simp]
theorem incIndent_output (st : TState) : (incIndent st).output = st.output := rfl

@[simp]
theorem incIndent_indentLevel (st : TState) :
    (incIndent st).indentLevel = st.indentLevel + 1 := rfl

@[simp]
theorem incIndent_minIndent (st : TState) :
    (incIndent st).minIndent = min st.minIndent (st.indentLevel + 1) := rfl

@[simp]
theorem incIndent_scope (st : TState) : (incIndent st).scope = st.scope := rfl

@[simp]
theorem incIndent_currentFunctionParams (st : TState) :
    (incIndent st).currentFunctionParams = st.currentFunctionParams := rfl

@[simp]
theorem decIndent_output (st : TState) : (decIndent st).output = st.output := rfl

@[simp]
theorem decIndent_indentLevel (st : TState) :
    (decIndent st).indentLevel = st.indentLevel - 1 := rfl

@[simp]
theorem decIndent_minIndent (st : TState) :
    (decIndent st).minIndent = min st.minIndent (st.indentLevel - 1) := rfl

@[simp]
theorem decIndent_scope (st : TState) : (decIndent st).scope = st.scope := rfl

@[simp]
theorem decIndent_currentFunctionParams (st : TState) :
    (decIndent st).currentFunctionParams = st.currentFunctionParams := rfl

@[simp]
theorem indentOf_append (st : TState) (l : String) :
    indentOf (append st l) = indentOf st := rfl

/-- `emitParamDocs` only appends its doc lines. -/
theorem emitParamDocs_spec (ps : List Param) (st : TState) :
    emitParamDocs ps st = { st with output := st.output ++ paramDocLines ps (indentOf st) } := by
  induction ps generalizing st with
  | nil => simp [emitParamDocs, paramDocLines]
  | cons p rest ih =>
      simp [emitParamDocs, paramDocLines, ih, append, indentOf]

/-- C1: claimed — a ForeachStatement emits a loop binding the loop
variable over the generated iterable, so `foreach item in [1, 2, 3]`
printing `item` prints 1, 2, 3 in order.  The code instead never reads
the node: `visit_ForeachStatement` probes `node.item` and
`node.collection`, but `ForeachStatement` defines `item_name` and
`iterable`, so both probes fail and the fallbacks `"item"` and `"[]"`
are emitted.  The generated loop iterates the empty list (printing
nothing), and the header ignores the declared loop variable (`x` in
the second conjunct); the third conjunct shows the generated iterable
text that is discarded. -/
theorem foreach_bug_ignores_iterable :
    (emitStmt (.foreachStatement (.identifier "item")
        (.listLiteral (.ofList [.literal (.int 1) "INTEGER", .literal (.int 2) "INTEGER",
          .literal (.int 3) "INTEGER"]))
        (.ofList [.printStatement (.identifier "item")])) initState).output
      = ["for item in []:\n", "    print(item)\n"] ∧
    (emitStmt (.foreachStatement (.identifier "x")
        (.listLiteral (.ofList [.literal (.int 1) "INTEGER", .literal (.int 2) "INTEGER",
          .literal (.int 3) "INTEGER"]))
        (.ofList [.printStatement (.identifier "x")])) initState).output
      = ["for item in []:\n", "    print(x)\n"] ∧
    visitExpr (.listLiteral (.ofList [.literal (.int 1) "INTEGER", .literal (.int 2) "INTEGER",
        .literal (.int 3) "INTEGER"])) = "[1, 2, 3]" :=
  ⟨rfl, rfl, rfl⟩

/-- C3 counterexample: `declare x as INTEGER` with no initializer
assigns `None`, not the integer-zero literal. -/
theorem uninitialized_integer_gets_none :
    (emitStmt (.variableDeclaration "x" (some (.scalar "INTEGER")) Option.none) initState).output
      = ["x: integer = None\n"] ∧
    "x: integer = None\n" ≠ "x: integer = 0\n" :=
  ⟨rfl, by decide⟩

/-- C3 amended: a VariableDeclaration with no initializer is emitted as
`<name>: <type> = None` for every declared type — the default is the
target null value uniformly, never a type-driven default literal. -/
theorem uninitialized_declaration_defaults_to_none (name : String) (t : Ty) (st : TState) :
    (emitStmt (.variableDeclaration name (some t) Option.none) st).output
      = st.output ++ [indentOf st ++ name ++ ": " ++ visitTy t ++ " = None\n"] :=
  rfl

/-- C4 counterexample: BinaryOp generation is not parenthesized
(`1 + 2`, not `(1 + 2)`), and an operator kind outside the six
explicitly handled ones falls through to lowercased operator text
(`EQ` emits the non-Python `1 eq 2`). -/
theorem binaryop_not_parenthesized :
    visitExpr (.binaryOp (.literal (.int 1) "INTEGER") "ADD" (.literal (.int 2) "INTEGER"))
      = "1 + 2" ∧
    "1 + 2" ≠ "(1 + 2)" ∧
    visitExpr (.binaryOp (.literal (.int 1) "INTEGER") "EQ" (.literal (.int 2) "INTEGER"))
      = "1 eq 2" :=
  ⟨rfl, by decide, rfl⟩

/-- C4 amended: `visit_BinaryOp` emits `<left> <op> <right>` without
parentheses, mapping only ADD, SUB, MUL, DIV, AND, OR explicitly; every
other operator kind (including EQ, NEQ, LT, LTE, GT, GTE) falls through
to the default branch emitting the lowercased operator text. -/
theorem binaryop_mapping (l r : Expr) :
    visitExpr (.binaryOp l "ADD" r) = visitExpr l ++ " + " ++ visitExpr r ∧
    visitExpr (.binaryOp l "SUB" r) = visitExpr l ++ " - " ++ visitExpr r ∧
    visitExpr (.binaryOp l "MUL" r) = visitExpr l ++ " * " ++ visitExpr r ∧
    visitExpr (.binaryOp l "DIV" r) = visitExpr l ++ " / " ++ visitExpr r ∧
    visitExpr (.binaryOp l "AND" r) = visitExpr l ++ " and " ++ visitExpr r ∧
    visitExpr (.binaryOp l "OR" r) = visitExpr l ++ " or " ++ visitExpr r ∧
    (∀ op : String, op ≠ "ADD" → op ≠ "SUB" → op ≠ "MUL" → op ≠ "DIV" →
      op ≠ "AND" → op ≠ "OR" →
      visitExpr (.binaryOp l op r) = visitExpr l ++ " " ++ pyLower op ++ " " ++ visitExpr r) := by
  refine ⟨rfl, ?_, ?_, ?_, ?_, ?_, ?_⟩
  · simp [visitExpr]
  · simp [visitExpr]
  · simp [visitExpr]
  · simp [visitExpr]
  · simp [visitExpr]
  · intro op h1 h2 h3 h4 h5 h6
    simp [visitExpr, h1, h2, h3, h4, h5, h6]

/-- C4 amended, witness: the fall-through branch at the EQ operator
kind. -/
theorem binaryop_mapping_witness :
    visitExpr (.binaryOp (.identifier "a") "EQ" (.identifier "b"))
      = visitExpr (.identifier "a") ++ " " ++ pyLower "EQ" ++ " " ++ visitExpr (.identifier "b") :=
  (binaryop_mapping (.identifier "a") (.identifier "b")).2.2.2.2.2.2 "EQ"
    (by decide) (by decide) (by decide) (by decide) (by decide) (by decide)

/-- C10: `visit_Identifier` maps the names TRUE and FALSE to the Python
boolean literals and every other name to itself, so an identifier
emitted by the generator is never the raw text `TRUE` or `FALSE` — a
user variable of that name cannot be referenced in generated code. -/
theorem identifier_true_false_special_cased :
    visitExpr (.identifier "TRUE") = "True" ∧
    visitExpr (.identifier "FALSE") = "False" ∧
    (∀ n : String, n ≠ "TRUE" → n ≠ "FALSE" → visitExpr (.identifier n) = n) ∧
    (∀ n : String, visitExpr (.identifier n) ≠ "TRUE" ∧ visitExpr (.identifier n) ≠ "FALSE") := by
  refine ⟨rfl, rfl, ?_, ?_⟩
  · intro n h1 h2
    simp [visitExpr, h1, h2]
  · intro n
    by_cases h1 : n = "TRUE"
    · subst h1; exact ⟨by decide, by decide⟩
    · by_cases h2 : n = "FALSE"
      · subst h2; exact ⟨by decide, by decide⟩
      · simp [visitExpr, h1, h2]

/-- C10 witness: an ordinary identifier is emitted verbatim. -/
theorem identifier_true_false_special_cased_witness :
    ("count" : String) ≠ "TRUE" ∧ ("count" : String) ≠ "FALSE" ∧
    visitExpr (.identifier "count") = "count" :=
  ⟨by decide, by decide,
    identifier_true_false_special_cased.2.2.1 "count" (by decide) (by decide)⟩

/-- C2 counterexample: a node type with no registered generation rule
is silently stringified by `generic_visit` — `str(node.value)` when the
node has a `value` attribute, `str(node)` otherwise — and no
`CodegenError` (no error at all) is raised. -/
theorem generic_visit_stringifies :
    genericVisit ⟨"CustomNode", some (.int 5), "<CustomNode object>"⟩ = Except.ok "5" ∧
    genericVisit ⟨"CustomNode", Option.none, "<CustomNode object>"⟩
      = Except.ok "<CustomNode object>" :=
  ⟨rfl, rfl⟩

/-- C2 amended: for every AST node type without a registered generation
rule, `generic_visit` silently stringifies the node (its `value`
attribute if present, else its `str()` form) and never raises any
error — `transpiler.py` defines `TranspilerError` but no code path
raises it, and no `CodegenError` exists. -/
theorem generic_visit_never_raises (n : UnknownNode) :
    (n.value = Option.none → genericVisit n = Except.ok n.strForm) ∧
    (∀ v, n.value = some v → genericVisit n = Except.ok (pyStr v)) ∧
    (∀ msg, genericVisit n ≠ Except.error msg) := by
  refine ⟨?_, ?_, ?_⟩
  · intro h; simp [genericVisit, h]
  · intro v h; simp [genericVisit, h]
  · intro msg
    cases h : n.value <;> simp [genericVisit, h]

/-- C2 amended, witness: both stringification branches at concrete
nodes. -/
theorem generic_visit_never_raises_witness :
    genericVisit ⟨"FooNode", Option.none, "<FooNode object>"⟩ = Except.ok "<FooNode object>" ∧
    genericVisit ⟨"BarNode", some (.int 7), "<BarNode object>"⟩ = Except.ok "7" :=
  ⟨(generic_visit_never_raises ⟨"FooNode", Option.none, "<FooNode object>"⟩).1 rfl,
   (generic_visit_never_raises ⟨"BarNode", some (.int 7), "<BarNode object>"⟩).2.1 (.int 7) rfl⟩

/-- C5 counterexample: inside a while body, the assignment `i = i + 1`
is not emitted as `<target> = <value-expr>` — the generator inspects
its shape and emits the augmented assignment `i += 1` instead. -/
theorem while_body_rewrites_increment :
    (emitStmt (.whileStatement (.binaryOp (.identifier "i") "<" (.literal (.int 10) "INTEGER"))
        (.ofList [.assignment (.identifier "i")
          (.binaryOp (.identifier "i") "ADD" (.literal (.int 1) "INTEGER"))])) initState).output
      = ["while i < 10:\n", "    i += 1\n"] ∧
    "    i += 1\n" ≠ "    i = i + 1\n" :=
  ⟨rfl, by decide⟩

/-- C5 amended: `visit_Assignment` itself emits
`<target> = <value-expr>` uniformly (its ADD special case produces the
same text as uniform visiting), but the while and foreach body loops
intercept assignments by shape: `x = x + e` is emitted as `x += e`
(in a while body, with `e` generating `"1"`, as `x += 1`), and an
identifier self-assignment `x = x` in a while body is emitted as
`x += 1  # Fixed infinite loop`. -/
theorem assignment_uniform_except_loop_bodies :
    (∀ (target value : Expr) (st : TState),
      (emitStmt (.assignment target value) st).output
        = st.output ++ [indentOf st ++ targetStr target ++ " = " ++ visitExpr value ++ "\n"]) ∧
    (∀ (v : String) (e : Expr) (rest : StmtList) (st : TState), visitExpr e ≠ "1" →
      emitWhileBody (.cons (.assignment (.identifier v)
          (.binaryOp (.identifier v) "ADD" e)) rest) st
        = emitWhileBody rest
            (append st (indentOf st ++ visitExpr (.identifier v) ++ " += " ++ visitExpr e ++ "\n"))) ∧
    (∀ (v : String) (e : Expr) (rest : StmtList) (st : TState), visitExpr e = "1" →
      emitWhileBody (.cons (.assignment (.identifier v)
          (.binaryOp (.identifier v) "ADD" e)) rest) st
        = emitWhileBody rest
            (append st (indentOf st ++ visitExpr (.identifier v) ++ " += 1\n"))) ∧
    (∀ (v : String) (rest : StmtList) (st : TState),
      emitWhileBody (.cons (.assignment (.identifier v) (.identifier v)) rest) st
        = emitWhileBody rest
            (append st (indentOf st ++ v ++ " += 1  # Fixed infinite loop\n"))) ∧
    (∀ (v : String) (e : Expr) (rest : StmtList) (st : TState),
      emitForeachBody (.cons (.assignment (.identifier v)
          (.binaryOp (.identifier v) "ADD" e)) rest) st
        = emitForeachBody rest
            (append st (indentOf st ++ visitExpr (.identifier v) ++ " += " ++ visitExpr e ++ "\n"))) := by
  refine ⟨?_, ?_, ?_, ?_, ?_⟩
  · intro target value st
    cases value with
    | binaryOp l op r =>
        by_cases h : op = "ADD"
        · subst h
          simp [emitStmt, visitExpr, String.append_assoc]
        · simp [emitStmt, h]
    | literal v t => simp [emitStmt]
    | identifier n => simp [emitStmt]
    | unaryOp op o => simp [emitStmt]
    | functionCall n a => simp [emitStmt]
    | listLiteral es => simp [emitStmt]
    | mapLiteral es => simp [emitStmt]
    | comparison l op r => simp [emitStmt]
  · intro v e rest st h
    simp [emitWhileBody, whileBodySpecial, exprNameAttr, h]
  · intro v e rest st h
    simp [emitWhileBody, whileBodySpecial, exprNameAttr, h]
  · intro v rest st
    simp [emitWhileBody, whileBodySpecial, exprNameAttr]
  · intro v e rest st
    simp [emitForeachBody, foreachBodySpecial, exprNameAttr]

/-- C5 amended, witness: the two while-body shapes at concrete inputs
(`count = count + step` and the `+ 1` shorthand branch). -/
theorem assignment_uniform_except_loop_bodies_witness :
    visitExpr (.identifier "step") ≠ "1" ∧
    emitWhileBody (.cons (.assignment (.identifier "count")
        (.binaryOp (.identifier "count") "ADD" (.identifier "step"))) .nil) initState
      = emitWhileBody .nil
          (append initState (indentOf initState ++ visitExpr (.identifier "count")
            ++ " += " ++ visitExpr (.identifier "step") ++ "\n")) ∧
    visitExpr (.literal (.int 1) "INTEGER") = "1" ∧
    emitWhileBody (.cons (.assignment (.identifier "count")
        (.binaryOp (.identifier "count") "ADD" (.literal (.int 1) "INTEGER"))) .nil) initState
      = emitWhileBody .nil
          (append initState (indentOf initState ++ visitExpr (.identifier "count") ++ " += 1\n")) :=
  ⟨by decide,
   assignment_uniform_except_loop_bodies.2.1 "count" (.identifier "step") .nil initState
     (by decide),
   by decide,
   assignment_uniform_except_loop_bodies.2.2.1 "count" (.literal (.int 1) "INTEGER") .nil initState
     (by decide)⟩

set_option maxRecDepth 20000 in
/-- C6 counterexample: renaming the program variable `numbers` to
`data` (first conjunct: the renamed AST) does not rename the generated
text — the while-identifier special case hard-codes
`get_length(numbers)`, so the generated text of the renamed program is
not the textual renaming of the original generated text. -/
theorem renaming_not_shape_preserving :
    renameProgram "numbers" "data"
        ⟨.ofList [.whileStatement (.identifier "numbers") (.ofList [.breakStatement])]⟩
      = ⟨.ofList [.whileStatement (.identifier "data") (.ofList [.breakStatement])]⟩ ∧
    transpile (renameProgram "numbers" "data"
        ⟨.ofList [.whileStatement (.identifier "numbers") (.ofList [.breakStatement])]⟩)
      ≠ textRename
          (transpile ⟨.ofList [.whileStatement (.identifier "numbers")
            (.ofList [.breakStatement])]⟩)
          "numbers" "data" :=
  ⟨rfl, by decide⟩

/-- C6 amended: generation is not name-agnostic — whenever a while
condition is a bare identifier, the emitted condition hard-codes the
literal variable name `numbers` (`while <v> < get_length(numbers):`)
regardless of the program's own variable names, so a consistent
renaming that involves the name `numbers` changes more than names in
the generated text; this is the name-literal special-casing of
`visit_WhileStatement`. -/
theorem while_identifier_condition_hardcodes_numbers (v : String) (st : TState) :
    (emitStmt (.whileStatement (.identifier v) (.ofList [.breakStatement])) st).output
      = st.output
        ++ [indentOf st ++ "# Ensure proper termination condition\n",
            indentOf st ++ "while " ++ visitExpr (.identifier v) ++ " < get_length(numbers):\n",
            pyIndent (st.indentLevel + 1) ++ "break\n"] := by
  simp [emitStmt, whileHeader, emitWhileBody, whileBodySpecial, StmtList.ofList, indentOf]

/-- C7 counterexample: a WhileStatement with an empty body emits only
the dangling `while` header — no `pass` placeholder, no complete
block. -/
theorem while_empty_body_dangling_header :
    (emitStmt (.whileStatement (.binaryOp (.identifier "i") "<"
        (.literal (.int 10) "INTEGER")) .nil) initState).output
      = ["while i < 10:\n"] ∧
    "    pass\n" ∉ (emitStmt (.whileStatement (.binaryOp (.identifier "i") "<"
        (.literal (.int 10) "INTEGER")) .nil) initState).output :=
  ⟨rfl, by decide⟩

/-- C7 amended: IfStatement (empty then-branch), ForeachStatement and
FunctionDefinition emit a `pass` placeholder for an empty body, so
their blocks are complete; WhileStatement does not — with an empty body
it emits only its header line(s) and leaves the block dangling. -/
theorem empty_block_placeholders :
    (∀ (cond : Expr) (st : TState),
      (emitStmt (.ifStatement cond .nil .nil) st).output
        = st.output ++ [indentOf st ++ "if " ++ ifConditionStr cond ++ ":\n",
            pyIndent (st.indentLevel + 1) ++ "pass\n"]) ∧
    (∀ (i e : Expr) (st : TState),
      (emitStmt (.foreachStatement i e .nil) st).output
        = st.output ++ [indentOf st ++ "for item in []:\n",
            pyIndent (st.indentLevel + 1) ++ "pass\n"]) ∧
    (∀ (name : String) (ps : List Param) (rt : Option Ty) (st : TState),
      (emitStmt (.functionDefinition name ps rt .nil) st).output
        = st.output
          ++ ["def " ++ name ++ "(" ++ joinComma (ps.map Param.name) ++ ") -> "
              ++ retStr rt ++ ":\n"]
          ++ funcDocLines name ps (retStr rt) (pyIndent (st.indentLevel + 1))
          ++ [pyIndent (st.indentLevel + 1) ++ "pass\n", "\n"]) ∧
    (∀ (n : String) (st : TState),
      (emitStmt (.whileStatement (.identifier n) .nil) st).output
        = st.output ++ [indentOf st ++ "# Ensure proper termination condition\n",
            indentOf st ++ "while " ++ visitExpr (.identifier n) ++ " < get_length(numbers):\n"]) ∧
    (∀ (l : Expr) (op : String) (r : Expr) (st : TState),
      (emitStmt (.whileStatement (.binaryOp l op r) .nil) st).output
        = st.output ++ [indentOf st ++ "while " ++ whileConditionStr (.binaryOp l op r) ++ ":\n"]) := by
  refine ⟨?_, ?_, ?_, ?_, ?_⟩
  · intro cond st
    simp [emitStmt, indentOf]
  · intro i e st
    simp [emitStmt, indentOf, String.append_assoc]
  · intro name ps rt st
    cases ps with
    | nil =>
        simp [emitStmt, funcDocEmit, scopeInstall, scopeRestore, funcDocLines, retStr, indentOf]
    | cons p rest =>
        simp [emitStmt, funcDocEmit, scopeInstall, scopeRestore, funcDocLines, retStr, indentOf,
          emitParamDocs_spec, paramDocLines]
  · intro n st
    simp [emitStmt, whileHeader, emitWhileBody, indentOf]
  · intro l op r st
    simp [emitStmt, whileHeader, emitWhileBody, indentOf]

theorem stepOk_self (st : TState) : StepOk st st :=
  ⟨rfl, le_refl _, min_le_left _ _⟩

theorem stepOk_trans {a b c : TState} (h1 : StepOk a b) (h2 : StepOk b c) : StepOk a c := by
  obtain ⟨i1, u1, l1⟩ := h1
  obtain ⟨i2, u2, l2⟩ := h2
  refine ⟨i2.trans i1, u2.trans u1, ?_⟩
  rw [i1] at l2
  omega

theorem stepOk_append (st : TState) (l : String) : StepOk st (append st l) :=
  ⟨rfl, le_refl _, min_le_left _ _⟩

/-- A state whose indentation fields agree with `st` is a valid step
result (record updates of `scope` / `currentFunctionParams`). -/
theorem stepOk_of_fields {st st' : TState} (hi : st'.indentLevel = st.indentLevel)
    (hm : st'.minIndent = st.minIndent) : StepOk st st' := by
  refine ⟨hi, hm.le, ?_⟩
  rw [hm]
  exact min_le_left _ _

/-- The increment/decrement bracket around a block: if the block body
is a valid step from the incremented state, the whole bracket is a
valid step from the original state. -/
theorem stepOk_bracket {st st1 : TState} (h : StepOk (incIndent st) st1) :
    StepOk st (decIndent st1) := by
  obtain ⟨hi, hu, hl⟩ := h
  simp only [incIndent_indentLevel, incIndent_minIndent] at hi hu hl
  refine ⟨?_, ?_, ?_⟩
  · simp [hi]
  · simp only [decIndent_minIndent]
    omega
  · simp only [decIndent_minIndent, hi]
    omega

theorem whileHeader_stepOk (cond : Expr) (st : TState) : StepOk st (whileHeader cond st) := by
  cases cond with
  | identifier n => exact stepOk_trans (stepOk_append _ _) (stepOk_append _ _)
  | literal v t => exact stepOk_append _ _
  | binaryOp l op r => exact stepOk_append _ _
  | unaryOp op o => exact stepOk_append _ _
  | functionCall f a => exact stepOk_append _ _
  | listLiteral es => exact stepOk_append _ _
  | mapLiteral es => exact stepOk_append _ _
  | comparison l op r => exact stepOk_append _ _

theorem emitParamDocs_stepOk (ps : List Param) (st : TState) :
    StepOk st (emitParamDocs ps st) := by
  rw [emitParamDocs_spec]
  exact stepOk_of_fields rfl rfl

theorem whileBodySpecial_stepOk (stmt : Stmt) (st st' : TState)
    (h : whileBodySpecial stmt st = some st') : StepOk st st' := by
  cases stmt with
  | assignment target value =>
      cases value with
      | binaryOp bl op br =>
          revert h
          simp only [whileBodySpecial]
          split
          · cases hT : exprNameAttr target with
            | some tn =>
                cases hL : exprNameAttr bl with
                | some ln =>
                    simp only [hT, hL]
                    split
                    · split <;> (intro h; injection h with h2; subst h2; exact stepOk_append _ _)
                    · intro h; cases h
                | none => simp [hT, hL]
            | none =>
                cases hL : exprNameAttr bl with
                | some ln => simp [hT, hL]
                | none => simp [hT, hL]
          · intro h; cases h
      | literal v t =>
          revert h
          simp only [whileBodySpecial]
          cases hT : exprNameAttr target <;> simp [hT, exprNameAttr]
      | identifier n =>
          revert h
          simp only [whileBodySpecial]
          cases hT : exprNameAttr target with
          | some tn =>
              simp only [hT, exprNameAttr]
              split
              · intro h; injection h with h2; subst h2; exact stepOk_append _ _
              · intro h; cases h
          | none => simp [hT, exprNameAttr]
      | unaryOp op o =>
          revert h
          simp only [whileBodySpecial]
          cases hT : exprNameAttr target <;> simp [hT, exprNameAttr]
      | functionCall f a =>
          revert h
          simp only [whileBodySpecial]
          cases hT : exprNameAttr target with
          | some tn =>
              simp only [hT, exprNameAttr]
              split
              · intro h; injection h with h2; subst h2; exact stepOk_append _ _
              · intro h; cases h
          | none => simp [hT, exprNameAttr]
      | listLiteral es =>
          revert h
          simp only [whileBodySpecial]
          cases hT : exprNameAttr target <;> simp [hT, exprNameAttr]
      | mapLiteral es =>
          revert h
          simp only [whileBodySpecial]
          cases hT : exprNameAttr target <;> simp [hT, exprNameAttr]
      | comparison l op r =>
          revert h
          simp only [whileBodySpecial]
          cases hT : exprNameAttr target <;> simp [hT, exprNameAttr]
  | variableDeclaration n t i => cases h
  | printStatement e => cases h
  | functionCallStatement fc => cases h
  | ifStatement c tb eb => cases h
  | whileStatement c b => cases h
  | foreachStatement i e b => cases h
  | functionDefinition n ps rt b => cases h
  | returnStatement e => cases h
  | breakStatement => cases h

theorem foreachBodySpecial_stepOk (stmt : Stmt) (st st' : TState)
    (h : foreachBodySpecial stmt st = some st') : StepOk st st' := by
  cases stmt with
  | assignment target value =>
      cases value with
      | binaryOp bl op br =>
          revert h
          simp only [foreachBodySpecial]
          split
          · cases hT : exprNameAttr target with
            | some tn =>
                cases hL : exprNameAttr bl with
                | some ln =>
                    simp only [hT, hL]
                    split
                    · intro h; injection h with h2; subst h2; exact stepOk_append _ _
                    · intro h; cases h
                | none => simp [hT, hL]
            | none =>
                cases hL : exprNameAttr bl with
                | some ln => simp [hT, hL]
                | none => simp [hT, hL]
          · intro h; cases h
      | literal v t => cases h
      | identifier n => cases h
      | unaryOp op o => cases h
      | functionCall f a => cases h
      | listLiteral es => cases h
      | mapLiteral es => cases h
      | comparison l op r => cases h
  | variableDeclaration n t i => cases h
  | printStatement e => cases h
  | functionCallStatement fc => cases h
  | ifStatement c tb eb => cases h
  | whileStatement c b => cases h
  | foreachStatement i e b => cases h
  | functionDefinition n ps rt b => cases h
  | returnStatement e => cases h
  | breakStatement => cases h

theorem funcDocEmit_stepOk (name : String) (params : List Param) (rts : String)
    (st : TState) : StepOk st (funcDocEmit name params rts st) := by
  cases params with
  | nil =>
      exact stepOk_trans (stepOk_append _ _)
        (stepOk_trans (stepOk_append _ _)
          (stepOk_trans (stepOk_append _ _) (stepOk_append _ _)))
  | cons p ps =>
      exact stepOk_trans (stepOk_append _ _)
        (stepOk_trans (stepOk_append _ _)
          (stepOk_trans
            (stepOk_trans (stepOk_append _ _) (emitParamDocs_stepOk (p :: ps) _))
            (stepOk_trans (stepOk_append _ _) (stepOk_append _ _))))

theorem scopeInstall_stepOk (paramNames : List String) (st : TState) :
    StepOk st (scopeInstall paramNames st) :=
  stepOk_of_fields rfl rfl

theorem scopeRestore_stepOk (oldScope oldParams : List String) (st : TState) :
    StepOk st (scopeRestore oldScope oldParams st) :=
  stepOk_of_fields rfl rfl

set_option maxHeartbeats 1600000 in
mutual

/-- Every statement visitor restores the indentation level and never
lets it pass below the smaller of the entry level and the recorded
minimum. -/
theorem emitStmt_stepOk (s : Stmt) (st : TState) : StepOk st (emitStmt s st) := by
  cases s with
  | variableDeclaration name vt ini =>
      cases ini with
      | some i => exact stepOk_append _ _
      | none => exact stepOk_append _ _
  | assignment target value =>
      cases value with
      | binaryOp l op r =>
          simp only [emitStmt]
          split
          · exact stepOk_append _ _
          · exact stepOk_append _ _
      | literal v t => exact stepOk_append _ _
      | identifier n => exact stepOk_append _ _
      | unaryOp op o => exact stepOk_append _ _
      | functionCall f a => exact stepOk_append _ _
      | listLiteral es => exact stepOk_append _ _
      | mapLiteral es => exact stepOk_append _ _
      | comparison l op r => exact stepOk_append _ _
  | printStatement e => exact stepOk_append _ _
  | functionCallStatement fc => exact stepOk_append _ _
  | ifStatement cond tb eb =>
      cases tb with
      | nil =>
          cases eb with
          | nil =>
              exact stepOk_trans (stepOk_append _ _) (stepOk_bracket (stepOk_append _ _))
          | cons e es =>
              exact stepOk_trans
                (stepOk_trans (stepOk_append _ _) (stepOk_bracket (stepOk_append _ _)))
                (stepOk_trans (stepOk_append _ _)
                  (stepOk_bracket (emitStmts_stepOk (.cons e es) _)))
      | cons t ts =>
          cases eb with
          | nil =>
              exact stepOk_trans (stepOk_append _ _)
                (stepOk_bracket (emitStmts_stepOk (.cons t ts) _))
          | cons e es =>
              exact stepOk_trans
                (stepOk_trans (stepOk_append _ _)
                  (stepOk_bracket (emitStmts_stepOk (.cons t ts) _)))
                (stepOk_trans (stepOk_append _ _)
                  (stepOk_bracket (emitStmts_stepOk (.cons e es) _)))
  | whileStatement cond body =>
      exact stepOk_trans (whileHeader_stepOk cond st)
        (stepOk_bracket (emitWhileBody_stepOk body _))
  | foreachStatement i e body =>
      cases body with
      | nil => exact stepOk_trans (stepOk_append _ _) (stepOk_bracket (stepOk_append _ _))
      | cons b bs =>
          exact stepOk_trans (stepOk_append _ _)
            (stepOk_bracket (emitForeachBody_stepOk (.cons b bs) _))
  | functionDefinition name ps rt body =>
      cases body with
      | nil =>
          exact stepOk_trans (stepOk_append _ _)
            (stepOk_trans
              (stepOk_bracket
                (stepOk_trans (funcDocEmit_stepOk name ps _ _)
                  (stepOk_trans (scopeInstall_stepOk _ _)
                    (stepOk_trans (stepOk_append _ _) (scopeRestore_stepOk _ _ _)))))
              (stepOk_append _ _))
      | cons b bs =>
          exact stepOk_trans (stepOk_append _ _)
            (stepOk_trans
              (stepOk_bracket
                (stepOk_trans (funcDocEmit_stepOk name ps _ _)
                  (stepOk_trans (scopeInstall_stepOk _ _)
                    (stepOk_trans (emitStmts_stepOk (.cons b bs) _) (scopeRestore_stepOk _ _ _)))))
              (stepOk_append _ _))
  | returnStatement e =>
      cases e with
      | some v => exact stepOk_append _ _
      | none => exact stepOk_append _ _
  | breakStatement => exact stepOk_append _ _
termination_by sizeOf s

/-- Statement-sequence emission restores the indentation level. -/
theorem emitStmts_stepOk (l : StmtList) (st : TState) : StepOk st (emitStmts l st) := by
  cases l with
  | nil => exact stepOk_self st
  | cons s rest => exact stepOk_trans (emitStmt_stepOk s st) (emitStmts_stepOk rest _)
termination_by sizeOf l

/-- The while body loop restores the indentation level. -/
theorem emitWhileBody_stepOk (l : StmtList) (st : TState) : StepOk st (emitWhileBody l st) := by
  cases l with
  | nil => exact stepOk_self st
  | cons stmt rest =>
      cases hS : whileBodySpecial stmt st with
      | some st1 =>
          have h1 := whileBodySpecial_stepOk stmt st st1 hS
          have h2 := emitWhileBody_stepOk rest st1
          simp only [emitWhileBody, hS]
          exact stepOk_trans h1 h2
      | none =>
          have h1 := emitStmt_stepOk stmt st
          have h2 := emitWhileBody_stepOk rest (emitStmt stmt st)
          simp only [emitWhileBody, hS]
          exact stepOk_trans h1 h2
termination_by sizeOf l

/-- The foreach body loop restores the indentation level. -/
theorem emitForeachBody_stepOk (l : StmtList) (st : TState) : StepOk st (emitForeachBody l st) := by
  cases l with
  | nil => exact stepOk_self st
  | cons stmt rest =>
      cases hS : foreachBodySpecial stmt st with
      | some st1 =>
          have h1 := foreachBodySpecial_stepOk stmt st st1 hS
          have h2 := emitForeachBody_stepOk rest st1
          simp only [emitForeachBody, hS]
          exact stepOk_trans h1 h2
      | none =>
          have h1 := emitStmt_stepOk stmt st
          have h2 := emitForeachBody_stepOk rest (emitStmt stmt st)
          simp only [emitForeachBody, hS]
          exact stepOk_trans h1 h2
termination_by sizeOf l

end

/-- C9: for every block-opening construct the indentation depth
returns to its pre-block value (every statement visitor preserves the
level, at every state), and over a whole program walk started by
`transpile` the recorded minimum of the indentation level never goes
below zero. -/
theorem indentation_balanced :
    (∀ (s : Stmt) (st : TState), (emitStmt s st).indentLevel = st.indentLevel) ∧
    (∀ p : Program,
      (emitStmts p.statements { initState with output := [generateImports] }).indentLevel = 0 ∧
      0 ≤ (emitStmts p.statements { initState with output := [generateImports] }).minIndent) := by
  constructor
  · intro s st
    exact (emitStmt_stepOk s st).1
  · intro p
    obtain ⟨hi, hu, hl⟩ :=
      emitStmts_stepOk p.statements { initState with output := [generateImports] }
    constructor
    · simpa [initState] using hi
    · simpa [initState] using hl

/-- On a well-formed plain literal body, the Python scan of the quoted
remainder agrees with the spec's fixed-table resolution and consumes
the whole token. -/
theorem scanQuoted_wellFormed (body : List Char) (h : wellFormedBody body = true) :
    scanQuoted (body ++ ['"']) = some (specEscapeResolve body, []) := by
  induction body using wellFormedBody.induct with
  | case1 => rfl
  | case2 rest2 => cases rest2 <;> simp [wellFormedBody] at h
  | case3 hq => simp [wellFormedBody] at h
  | case4 c2 rest2 hq ih =>
      simp only [wellFormedBody] at h
      simp only [List.cons_append]
      simp [scanQuoted, specEscapeResolve, pyEsc, ih h]
  | case5 c2 rest2 hq hb ih =>
      cases rest2 with
      | nil =>
          simp [scanQuoted, specEscapeResolve, hq, hb]
      | cons d rest3 =>
          simp only [wellFormedBody, if_neg hq, if_neg hb] at h
          have ih2 := ih h
          simp only [List.cons_append] at ih2 ⊢
          simp [scanQuoted, specEscapeResolve, hq, hb, ih2]

/-- Evaluating a well-formed plain double-quoted token yields the
fixed-table resolution of its body. -/
theorem pyEvalToken_plain (body : List Char) (h : wellFormedBody body = true) :
    pyEvalToken (String.mk ('"' :: body ++ ['"'])) = some (String.mk (specEscapeResolve body)) := by
  have hs := scanQuoted_wellFormed body h
  simp [pyEvalToken, hs]

/-- C8 counterexample: the Tree Builder does not materialize string
literals through a fixed escape table — it evaluates the token text as
Python code, so the token text `"a" + "b"` (code, not a single quoted
literal) is materialized as the concatenation `ab`, while the
spec-modelled fixed-table resolver accepts no such token. -/
theorem string_literal_evaluates_code :
    STRING_LITERAL "\"a\" + \"b\"" = some (Expr.literal (.str "ab") "STRING") ∧
    specStringValue "\"a\" + \"b\"" = Option.none :=
  ⟨rfl, rfl⟩

/-- C8 amended: `STRING_LITERAL` materializes the value by evaluating
the raw token text as Python code (`eval`); on plain well-formed
double-quoted literal tokens this coincides with resolving the body
through the fixed escape table, but token text that is a larger Python
expression (such as `"a" + "b"`) is executed as code. -/
theorem string_literal_by_eval :
    (∀ body : List Char, wellFormedBody body = true →
      STRING_LITERAL (String.mk ('"' :: body ++ ['"']))
        = some (Expr.literal (.str (String.mk (specEscapeResolve body))) "STRING")) ∧
    STRING_LITERAL "\"a\" + \"b\"" = some (Expr.literal (.str "ab") "STRING") := by
  constructor
  · intro body h
    have hp := pyEvalToken_plain body h
    unfold STRING_LITERAL
    rw [hp]
  · rfl

/-- C8 amended, witness: the escape-resolving branch at the body
`a\nb`. -/
theorem string_literal_by_eval_witness :
    wellFormedBody ['a', '\\', 'n', 'b'] = true ∧
    STRING_LITERAL (String.mk ('"' :: ['a', '\\', 'n', 'b'] ++ ['"']))
      = some (Expr.literal (.str (String.mk (specEscapeResolve ['a', '\\', 'n', 'b']))) "STRING") :=
  ⟨by decide, string_literal_by_eval.1 ['a', '\\', 'n', 'b'] (by decide)⟩

end Fluent
